import Mathlib

/-!
Verification of the CareGaps tool-calling agent.

Shallow embedding of src/CareGapsAgents/agent.py (primary variant) and
src/CareGapsAgents/caregaps_driver.py (earlier notebook variant, whose agent
code is the %%writefile agent.py cell).  Python values flowing through the
agent (JSON-parsed tool arguments and tool results) are modelled by the
mutual inductive type PyVal below; the opaque collaborators (the remote
function-execution service, the streaming model endpoint, and the exact
message texts of library exceptions) are parameters of an Env structure.
-/

/-! ## Python value model (dict / list / str / int / bool / None) -/

mutual
inductive PyVal where
  | str (s : String)
  | int (n : Int)
  | bool (b : Bool)
  | null
  | list (xs : PyList)
  | dict (kvs : PyDict)
  deriving DecidableEq
inductive PyList where
  | nil
  | cons (v : PyVal) (tail : PyList)
  deriving DecidableEq
inductive PyDict where
  | nil
  | cons (k : String) (v : PyVal) (tail : PyDict)
  deriving DecidableEq
end

def PyList.ofList : List PyVal → PyList
  | [] => .nil
  | v :: rest => .cons v (PyList.ofList rest)

def PyList.toList : PyList → List PyVal
  | .nil => []
  | .cons v tail => v :: tail.toList

def PyList.length : PyList → Nat
  | .nil => 0
  | .cons _ tail => tail.length + 1

def PyDict.ofList : List (String × PyVal) → PyDict
  | [] => .nil
  | (k, v) :: rest => .cons k v (PyDict.ofList rest)

def PyDict.toList : PyDict → List (String × PyVal)
  | .nil => []
  | .cons k v tail => (k, v) :: tail.toList

def PyDict.keys : PyDict → List String
  | .nil => []
  | .cons k _ tail => k :: tail.keys

/-- Python dict lookup with a default: row.get(key, default). -/
def PyDict.get : PyDict → String → Option PyVal
  | .nil, _ => none
  | .cons k v tail, h => if k = h then some v else tail.get h

/-- Python truthiness of a value, as used by `if not args:` and
`if should_mask and value:`. -/
def pyTruthy : PyVal → Bool
  | .str s => s ≠ ""
  | .int n => n ≠ 0
  | .bool b => b
  | .null => false
  | .list xs => xs ≠ .nil
  | .dict kvs => kvs ≠ .nil

/-! ## Python str() / repr() of values

str(x) for a string is the string itself; for containers Python falls back to
repr, which renders strings in single quotes.  Only scalar cells appear in the
claims; the container cases are included for totality. -/

mutual
def pyRepr : PyVal → String
  | .str s => "\x27" ++ s ++ "\x27"
  | .int n => toString n
  | .bool b => if b then "True" else "False"
  | .null => "None"
  | .list xs => "[" ++ pyReprL xs ++ "]"
  | .dict kvs => "\x7b" ++ pyReprD kvs ++ "\x7d"
def pyReprL : PyList → String
  | .nil => ""
  | .cons v .nil => pyRepr v
  | .cons v tail => pyRepr v ++ ", " ++ pyReprL tail
def pyReprD : PyDict → String
  | .nil => ""
  | .cons k v .nil => "\x27" ++ k ++ "\x27: " ++ pyRepr v
  | .cons k v tail => "\x27" ++ k ++ "\x27: " ++ pyRepr v ++ ", " ++ pyReprD tail
end

def pyStr : PyVal → String
  | .str s => s
  | v => pyRepr v

/-! ## Model of json.dumps (default separators, minimal escaping)

json.dumps with default arguments renders containers with ", " and ": "
separators; the escape table below covers quote, backslash and the common
control characters (the full library also escapes other control characters
and non-ASCII text, which the claims never exercise). -/

def jsonEscapeChar (c : Char) : List Char :=
  if c = '"' then ['\\', '"']
  else if c = '\\' then ['\\', '\\']
  else if c = '\n' then ['\\', 'n']
  else if c = '\t' then ['\\', 't']
  else if c = '\r' then ['\\', 'r']
  else [c]

def jsonEscape (s : String) : String :=
  String.mk (s.data.foldr (fun c acc => jsonEscapeChar c ++ acc) [])

def jsonQuote (s : String) : String := "\"" ++ jsonEscape s ++ "\""

mutual
def dumps : PyVal → String
  | .str s => jsonQuote s
  | .int n => toString n
  | .bool b => if b then "true" else "false"
  | .null => "null"
  | .list xs => "[" ++ dumpsL xs ++ "]"
  | .dict kvs => "\x7b" ++ dumpsD kvs ++ "\x7d"
def dumpsL : PyList → String
  | .nil => ""
  | .cons v .nil => dumps v
  | .cons v tail => dumps v ++ ", " ++ dumpsL tail
def dumpsD : PyDict → String
  | .nil => ""
  | .cons k v .nil => jsonQuote k ++ ": " ++ dumps v
  | .cons k v tail => jsonQuote k ++ ": " ++ dumps v ++ ", " ++ dumpsD tail
end

/-! ## Model of json.loads

A recursive-descent JSON reader over the fragment the agent exchanges with
the model: objects, arrays, strings (with the common escapes), integers,
booleans and null.  json.loads raises on malformed input; the model returns
none there (and also on JSON floats, which the claims never exercise).
Recursion is bounded by explicit fuel so that every definition is a plain
structural recursion the kernel can evaluate; the initial fuel 2*|s|+4
exceeds the number of parser steps possible on an input of length |s|. -/

def jsonWsChar (c : Char) : Bool :=
  c = ' ' || c = '\t' || c = '\n' || c = '\r'

def skipWs : List Char → List Char
  | [] => []
  | c :: rest => if jsonWsChar c then skipWs rest else c :: rest

def parseStrBody : Nat → List Char → Option (String × List Char)
  | 0, _ => none
  | _ + 1, [] => none
  | fuel + 1, c :: rest =>
    if c = '"' then some ("", rest)
    else if c = '\\' then
      match rest with
      | [] => none
      | e :: rest2 =>
        let dec : Option Char :=
          if e = '"' then some '"'
          else if e = '\\' then some '\\'
          else if e = '/' then some '/'
          else if e = 'n' then some '\n'
          else if e = 't' then some '\t'
          else if e = 'r' then some '\r'
          else none
        match dec with
        | some d =>
          match parseStrBody fuel rest2 with
          | some (s, r) => some (String.mk (d :: s.data), r)
          | none => none
        | none => none
    else
      match parseStrBody fuel rest with
      | some (s, r) => some (String.mk (c :: s.data), r)
      | none => none

def readDigits : Nat → List Char → Nat × List Char
  | acc, [] => (acc, [])
  | acc, c :: rest =>
    if c.isDigit then readDigits (acc * 10 + (c.toNat - 48)) rest else (acc, c :: rest)

def floatFollows : List Char → Bool
  | '.' :: _ => true
  | 'e' :: _ => true
  | 'E' :: _ => true
  | _ => false

def parseNumber (s : List Char) : Option (PyVal × List Char) :=
  match s with
  | '-' :: rest =>
    match rest with
    | c :: _ =>
      if c.isDigit then
        let nr := readDigits 0 rest
        if floatFollows nr.2 then none else some (.int (-(nr.1 : Int)), nr.2)
      else none
    | [] => none
  | c :: _ =>
    if c.isDigit then
      let nr := readDigits 0 s
      if floatFollows nr.2 then none else some (.int (nr.1 : Int), nr.2)
    else none
  | [] => none

/-- Parser tasks: a single value, the items of a non-empty array (after the
opening bracket), or the entries of a non-empty object (after the opening
brace). -/
inductive PTask where
  | value
  | arrItems (acc : List PyVal)
  | objItems (acc : List (String × PyVal))

def parseJ : Nat → PTask → List Char → Option (PyVal × List Char)
  | 0, _, _ => none
  | fuel + 1, .value, s =>
    match skipWs s with
    | [] => none
    | c :: rest =>
      if c = 'n' then
        match rest with
        | 'u' :: 'l' :: 'l' :: r => some (.null, r)
        | _ => none
      else if c = 't' then
        match rest with
        | 'r' :: 'u' :: 'e' :: r => some (.bool true, r)
        | _ => none
      else if c = 'f' then
        match rest with
        | 'a' :: 'l' :: 's' :: 'e' :: r => some (.bool false, r)
        | _ => none
      else if c = '"' then
        match parseStrBody (rest.length + 1) rest with
        | some (s2, r) => some (.str s2, r)
        | none => none
      else if c = '[' then
        match skipWs rest with
        | ']' :: r => some (.list .nil, r)
        | s2 => parseJ fuel (.arrItems []) s2
      else if c = '{' then
        match skipWs rest with
        | '}' :: r => some (.dict .nil, r)
        | s2 => parseJ fuel (.objItems []) s2
      else parseNumber (c :: rest)
  | fuel + 1, .arrItems acc, s =>
    match parseJ fuel .value s with
    | none => none
    | some (v, r) =>
      match skipWs r with
      | ',' :: r2 => parseJ fuel (.arrItems (acc ++ [v])) r2
      | ']' :: r2 => some (.list (PyList.ofList (acc ++ [v])), r2)
      | _ => none
  | fuel + 1, .objItems acc, s =>
    match skipWs s with
    | '"' :: rest =>
      match parseStrBody (rest.length + 1) rest with
      | none => none
      | some (k, r) =>
        match skipWs r with
        | ':' :: r2 =>
          match parseJ fuel .value r2 with
          | none => none
          | some (v, r3) =>
            match skipWs r3 with
            | ',' :: r4 => parseJ fuel (.objItems (acc ++ [(k, v)])) r4
            | '}' :: r4 => some (.dict (PyDict.ofList (acc ++ [(k, v)])), r4)
            | _ => none
        | _ => none
    | _ => none

/-- Model of json.loads: parse one value and require the remainder to be
whitespace, otherwise fail (raise). -/
def loads (s : String) : Option PyVal :=
  match parseJ (2 * s.length + 4) .value s.data with
  | some (v, rest) => if skipWs rest = [] then some v else none
  | none => none

/-! ## Python string helpers shared by both variants -/

/-- The character class of Python str.split() / str.strip() / regex \s. -/
def isPySpace (c : Char) : Bool :=
  c = ' ' || c = '\t' || c = '\n' || c = '\r' || c = '\x0b' || c = '\x0c'

/-- Python str.strip(). -/
def pyStrip (s : String) : String :=
  String.mk (((s.data.dropWhile isPySpace).reverse.dropWhile isPySpace).reverse)

/-- Helper for pySplitWs: acc holds the current word reversed. -/
def splitWsAux : List Char → List Char → List String
  | acc, [] => if acc.isEmpty then [] else [String.mk acc.reverse]
  | acc, c :: rest =>
    if isPySpace c then
      (if acc.isEmpty then [] else [String.mk acc.reverse]) ++ splitWsAux [] rest
    else splitWsAux (c :: acc) rest

/-- Python str.split() with no argument: split on whitespace runs, dropping
empty pieces. -/
def pySplitWs (s : String) : List String := splitWsAux [] s.data

/-- Python s[0] as a one-character string.  The callers below only apply it
to non-empty words produced by split. -/
def firstChar (s : String) : String :=
  match s.data with
  | c :: _ => String.mk [c]
  | [] => ""

/-- Python s[-k:]. -/
def lastChars (k : Nat) (s : String) : String :=
  String.mk (s.data.drop (s.data.length - k))

/-- Python substring containment: pat in s. -/
def containsSub (pat : List Char) : List Char → Bool
  | [] => pat.isPrefixOf []
  | c :: rest => pat.isPrefixOf (c :: rest) || containsSub pat rest

def strContains (pat s : String) : Bool := containsSub pat.data s.data

/-- Python s.replace(pat, "") : remove every occurrence of pat, scanning left
to right without rescanning the replaced text.  Fuel-bounded structural
recursion; fuel = |s| suffices since every step consumes at least one
character. -/
def removeAux (pat : List Char) : Nat → List Char → List Char
  | 0, s => s
  | _ + 1, [] => []
  | fuel + 1, c :: rest =>
    if !pat.isEmpty && pat.isPrefixOf (c :: rest) then
      removeAux pat fuel ((c :: rest).drop pat.length)
    else c :: removeAux pat fuel rest

def removeOccurrences (pat s : String) : String :=
  String.mk (removeAux pat.data s.data.length s.data)

/-- Python str.lower() (ASCII). -/
def pyLower (s : String) : String := String.mk (s.data.map Char.toLower)

/-- Python str.title(): uppercase a letter that follows a non-letter,
lowercase the other letters. -/
def titleAux : Bool → List Char → List Char
  | _, [] => []
  | prevAlpha, c :: rest =>
    if c.isAlpha then
      (if prevAlpha then c.toLower else c.toUpper) :: titleAux true rest
    else c :: titleAux false rest

def pyTitle (s : String) : String := String.mk (titleAux false s.data)

/-- key.replace(underscore, space): single-character replacement is a
character map. -/
def underscoresToSpaces (s : String) : String :=
  String.mk (s.data.map fun c => if c = '_' then ' ' else c)

/-- agent.py: h.replace(underscore, space).title(). -/
def humanize (s : String) : String := pyTitle (underscoresToSpaces s)

/-- agent.py 610: str(row.get(h, ""))[:80]. -/
def truncate80 (s : String) : String := String.mk (s.data.take 80)

/-! ## InputValidator (agent.py 230-269, identical in the driver variant)

DANGEROUS_PATTERNS are six fixed regular expressions matched with
re.IGNORECASE via re.search.  The constructs they use are literals, \s*,
\s+, .* and the end anchor; the matcher below implements exactly these.
re.search tries a match at every start position; the end anchor accepts the
end of the string or the position just before a trailing newline; the dot
matches any character except a newline. -/

inductive RAtom where
  | lit (c : Char)
  | wsStar
  | wsPlus
  | dotStar
  | lineEnd
  deriving DecidableEq

/-- Backtracking matcher for a sequence of atoms against a suffix of the
input.  Fuel-bounded: every step shortens the pattern or the input, so fuel
|pats| + |s| + 1 is sufficient. -/
def matchAtoms : Nat → List RAtom → List Char → Bool
  | 0, _, _ => false
  | _ + 1, [], _ => true
  | fuel + 1, .lit c :: ps, s =>
    match s with
    | [] => false
    | x :: xs => x.toLower = c.toLower && matchAtoms fuel ps xs
  | fuel + 1, .wsStar :: ps, s =>
    matchAtoms fuel ps s ||
      (match s with
       | x :: xs => isPySpace x && matchAtoms fuel (.wsStar :: ps) xs
       | [] => false)
  | fuel + 1, .wsPlus :: ps, s =>
    (match s with
     | x :: xs => isPySpace x && matchAtoms fuel (.wsStar :: ps) xs
     | [] => false)
  | fuel + 1, .dotStar :: ps, s =>
    matchAtoms fuel ps s ||
      (match s with
       | x :: xs => x ≠ '\n' && matchAtoms fuel (.dotStar :: ps) xs
       | [] => false)
  | fuel + 1, .lineEnd :: ps, s =>
    (s.isEmpty || s = ['\n']) && matchAtoms fuel ps s

def matchHere (pats : List RAtom) (s : List Char) : Bool :=
  matchAtoms (pats.length + s.length + 1) pats s

def searchFrom : Nat → List RAtom → List Char → Bool
  | 0, _, _ => false
  | _ + 1, pats, [] => matchHere pats []
  | fuel + 1, pats, x :: xs => matchHere pats (x :: xs) || searchFrom fuel pats xs

/-- Model of re.search(pattern, s, re.IGNORECASE) as a Boolean. -/
def regexSearch (pats : List RAtom) (s : String) : Bool :=
  searchFrom (s.length + 1) pats s.data

def litAtoms (s : String) : List RAtom := s.data.map RAtom.lit

def patDropTable : List RAtom :=
  litAtoms ";" ++ [.wsStar] ++ litAtoms "drop" ++ [.wsPlus] ++ litAtoms "table"

def patDeleteFrom : List RAtom :=
  litAtoms ";" ++ [.wsStar] ++ litAtoms "delete" ++ [.wsPlus] ++ litAtoms "from"

def patUpdateSet : List RAtom :=
  litAtoms ";" ++ [.wsStar] ++ litAtoms "update" ++ [.wsPlus, .dotStar, .wsPlus] ++ litAtoms "set"

def patUnionSelect : List RAtom :=
  litAtoms "union" ++ [.wsPlus] ++ litAtoms "select"

def patLineComment : List RAtom := litAtoms "--" ++ [.wsStar, .lineEnd]

def patBlockComment : List RAtom := litAtoms "/*" ++ [.dotStar] ++ litAtoms "*/"

def DANGEROUS_PATTERNS : List (List RAtom) :=
  [patDropTable, patDeleteFrom, patUpdateSet, patUnionSelect, patLineComment, patBlockComment]

/-- agent.py 243-258: InputValidator.is_safe_input. -/
def is_safe_input (userInput : String) : Bool × String :=
  if userInput = "" then (false, "Empty input")
  else if 1000 < userInput.length then (false, "Input too long (max 1000 characters)")
  else if DANGEROUS_PATTERNS.any (fun p => regexSearch p userInput) then
    (false, "Potentially dangerous input detected")
  else (true, "Valid")

/-- agent.py 260-269: InputValidator.sanitize_input. -/
def sanitize_input (userInput : String) : String :=
  pyStrip (String.mk (userInput.data.filter fun c =>
    !(c.toNat ≤ 0x1f || (0x7f ≤ c.toNat && c.toNat ≤ 0x9f))))

/-! ## Tool-name repair (agent.py 620-646) -/

def BAD_TOKENS : List String :=
  ["<|channel|>", "<|commentary|>", "commentary", "channel", "<|", "|>"]

/-- agent.py: ToolCallingAgent._sanitize_function_name.  Applies
raw.replace(token, "") for each bad token in order. -/
def sanitize_function_name (rawName : String) : String :=
  if rawName = "" then rawName
  else BAD_TOKENS.foldl (fun s token => removeOccurrences token s) rawName

/-! ## PHIMasker (caregaps_driver.py 126-259) -/

def PHI_MASKING_ENABLED : Bool := true

/-- caregaps_driver.py 129-142: PHIMasker.mask_name. -/
def mask_name (name : String) : String :=
  if name = "" || pyStrip name = "" then "[REDACTED]"
  else
    match pySplitWs (pyStrip name) with
    | [] => "[REDACTED]"
    | [p] => firstChar p ++ "***"
    | p0 :: p1 :: more =>
      firstChar p0 ++ "*** " ++ firstChar (((p1 :: more).getLast?).getD "") ++ "***"

/-- caregaps_driver.py 144-149: PHIMasker.mask_mrn. -/
def mask_mrn (mrn : String) : String :=
  if mrn = "" ∨ mrn.length < 4 then
    "****" ++ (if mrn = "" then "" else lastChars 2 mrn)
  else "****" ++ lastChars 4 mrn

/-- caregaps_driver.py 151-160: PHIMasker.mask_phone. -/
def mask_phone (phone : String) : String :=
  if phone = "" then "[REDACTED]"
  else
    let digits := String.mk (phone.data.filter Char.isDigit)
    if 10 ≤ digits.length then "(" ++ String.mk (digits.data.take 3) ++ ") ***-****"
    else "***-****"

/-- caregaps_driver.py 162-174: PHIMasker.mask_email.  email.split(at, 1)
splits at the first at-sign; local parts of length 0 would raise in Python
(indexing an empty string) and are unreachable through the claims. -/
def mask_email (email : String) : String :=
  if email = "" || !(email.data.contains '@') then "[REDACTED]"
  else
    let locPart := String.mk (email.data.takeWhile (fun c => c ≠ '@'))
    let domPart := String.mk ((email.data.dropWhile (fun c => c ≠ '@')).drop 1)
    let maskedLocal :=
      if locPart.length ≤ 2 then firstChar locPart ++ "***"
      else firstChar locPart ++ "***" ++ lastChars 1 locPart
    maskedLocal ++ "@" ++ domPart

/-- caregaps_driver.py 176-191: PHIMasker.mask_provider_name. -/
def mask_provider_name (name : String) : String :=
  if name = "" || pyStrip name = "" then "[REDACTED]"
  else
    let name2 := if name.startsWith "Dr. " then String.mk (name.data.drop 4) else name
    match pySplitWs (pyStrip name2) with
    | [] => "[REDACTED]"
    | [p] => p
    | p0 :: p1 :: more => firstChar p0 ++ "*** " ++ (((p1 :: more).getLast?).getD "")

/-- caregaps_driver.py 193-212: PHIMasker.should_mask_column. -/
def should_mask_column (columnName : String) : Bool × Option String :=
  let l := pyLower columnName
  if strContains "patient_name" l || l = "name" then (true, some "name")
  else if strContains "mrn" l || l = "patient_mrn" then (true, some "mrn")
  else if strContains "phone" l || strContains "contact" l then (true, some "phone")
  else if strContains "email" l then (true, some "email")
  else if strContains "provider_name" l || strContains "pcp_name" l then (true, some "provider")
  else (false, none)

/-- The per-entry masking performed by the dict branch of mask_result
(caregaps_driver.py 235-256): mask a truthy value whose column name is
classified as PHI, leave everything else unchanged. -/
def maskDictEntry (k : String) (v : PyVal) : PyVal :=
  let sm := should_mask_column k
  if sm.1 && pyTruthy v then
    match sm.2 with
    | some t =>
      if t = "name" then .str (mask_name (pyStr v))
      else if t = "mrn" then .str (mask_mrn (pyStr v))
      else if t = "phone" then .str (mask_phone (pyStr v))
      else if t = "email" then .str (mask_email (pyStr v))
      else if t = "provider" then .str (mask_provider_name (pyStr v))
      else v
    | none => v
  else v

/-- The dict branch of mask_result: a new dict with the same keys in the
same order, each value passed through maskDictEntry.  Values under
non-masked keys are not recursed into (the source stores them unchanged). -/
def maskRecord : PyDict → PyDict
  | .nil => .nil
  | .cons k v tail => .cons k (maskDictEntry k v) (maskRecord tail)

/-! mask_result (caregaps_driver.py 214-259) recurses into list elements and,
for strings, into the json.loads parse of the string; the dict branch applies
maskRecord without recursing, and any other value is returned as-is.  The
recursion into a parse result is not structural, so it is written as a step
function iterated with fuel that bounds the parse-nesting depth; a string of
length L can nest parsed strings at most L deep, so the fuel chosen by
mask_result below is always sufficient. -/

mutual
def maskVStep (recStr : String → PyVal) : PyVal → PyVal
  | .str s => recStr s
  | .list xs => .list (maskLStep recStr xs)
  | .dict kvs => .dict (maskRecord kvs)
  | v => v
def maskLStep (recStr : String → PyVal) : PyList → PyList
  | .nil => .nil
  | .cons v tail => .cons (maskVStep recStr v) (maskLStep recStr tail)
end

def maskTop : Nat → PyVal → PyVal
  | 0, v => v
  | fuel + 1, v =>
    maskVStep
      (fun s =>
        match loads s with
        | some d => .str (dumps (maskTop fuel d))
        | none => .str s)
      v

mutual
def parseFuelV : PyVal → Nat
  | .str s => s.length + 1
  | .list xs => parseFuelL xs + 1
  | _ => 1
def parseFuelL : PyList → Nat
  | .nil => 0
  | .cons v tail => max (parseFuelV v) (parseFuelL tail)
end

/-- caregaps_driver.py 214-259: PHIMasker.mask_result. -/
def mask_result (v : PyVal) : PyVal :=
  if PHI_MASKING_ENABLED = false then v else maskTop (parseFuelV v) v

/-! ## Result formatting (agent.py 577-618) -/

/-- agent.py 577-583: _format_dict_result renders one humanized
"Key: value" line per entry. -/
def formatDictLines : PyDict → List String
  | .nil => []
  | .cons k v tail => (humanize k ++ ": " ++ pyStr v) :: formatDictLines tail

def format_dict_result (kvs : PyDict) : String :=
  String.intercalate "\n" (formatDictLines kvs)

/-- Cell text: str(row.get(h, "")) truncated to 80 characters
(agent.py 610). -/
def rowGet : PyVal → String → PyVal
  | .dict kvs, h => (kvs.get h).getD (.str "")
  | _, _ => .str ""

def table_cell (row : PyVal) (h : String) : String :=
  truncate80 (pyStr (rowGet row h))

def table_row_line (headers : List String) (row : PyVal) : String :=
  "| " ++ String.intercalate " | " (headers.map (table_cell row)) ++ " |"

/-- agent.py 596-618: the lines list built by _format_table before joining.
data[0].keys() is only evaluated when the first row is a dict, which is the
only way _format_list_result reaches _format_table. -/
def format_table_lines (data : PyList) : List String :=
  let headers : List String :=
    match data with
    | .cons (.dict kvs) _ => kvs.keys
    | _ => []
  ("| " ++ String.intercalate " | " (headers.map humanize) ++ " |")
    :: ("|" ++ String.intercalate "|" (headers.map fun _ => "---") ++ "|")
    :: (data.toList.map (table_row_line headers)
      ++ ["\n**Total: " ++ toString data.length ++ " results**",
          "\n### Next Best Actions:",
          "Please provide 3-5 specific action items based on this data."])

def format_table (data : PyList) : String :=
  match data with
  | .nil => "No results found."
  | _ => String.intercalate "\n" (format_table_lines data)

/-- agent.py 585-593: _format_list_result. -/
def format_list_result (result : PyList) : String :=
  match result with
  | .nil => "No results found."
  | .cons first _ =>
    match first with
    | .dict _ => format_table result
    | _ => String.intercalate "\n" (result.toList.map fun item => "• " ++ pyStr item)

/-! ## Conversation messages

The loop inspects the last message through dict-style access:
msg.get("role", None) and msg.get("type", None).  The constructors cover the
item kinds the agent exchanges: chat messages, assistant output items,
function_call items, function_call_output items, and other completed output
items without role or function_call type (for example reasoning items), which
drive the loop into the model branch exactly as any unrecognized item does in
the source. -/

inductive Msg where
  | system (content : String)
  | user (content : String)
  | assistant (content : String)
  | functionCall (name arguments callId : String)
  | functionCallOutput (callId output : String)
  | reasoning (content : String)
  deriving DecidableEq

def Msg.role : Msg → Option String
  | .system _ => some "system"
  | .user _ => some "user"
  | .assistant _ => some "assistant"
  | _ => none

def Msg.msgType : Msg → Option String
  | .assistant _ => some "message"
  | .functionCall _ _ _ => some "function_call"
  | .functionCallOutput _ _ => some "function_call_output"
  | .reasoning _ => some "reasoning"
  | _ => none

def Msg.content : Msg → Option String
  | .system c => some c
  | .user c => some c
  | .assistant c => some c
  | _ => none

/-! ## Tool registry and environment -/

/-- agent.py 276-282: ToolInfo is a pydantic model with exactly the fields
name, spec and exec_fn.  Here the spec is reduced to the one part of
tool_spec.function.parameters the claims mention, its list of required
parameter names, and exec_fn is modelled by Env.execFn below. -/
structure ToolInfo where
  name : String
  requiredParams : List String
  deriving DecidableEq

/-- Because ToolInfo declares no field named parameters, pydantic raises
AttributeError on tool_info.parameters, so hasattr(tool_info, "parameters")
is False for every instance (agent.py 453). -/
def hasattr_parameters (_t : ToolInfo) : Bool := false

/-- self._tools_dict is {tool.name: tool}; lookup by exposed tool name.
The UC tool names are pairwise distinct, so first-match lookup agrees with
the Python dict. -/
def lookup_tool (tools : List ToolInfo) (name : String) : Option ToolInfo :=
  tools.find? (fun t => t.name = name)

/-- The opaque collaborators of the agent:
  tools     - the registry built at process start;
  execFn    - the result of exec_fn (the remote function-execution wrapper,
              which never raises: it returns an error string itself);
  oracle    - the completed output items appended (and yielded) by the k-th
              model call, k counted from 0;
  loadsErr  - str(e) of the exception raised by json.loads on a given raw
              argument payload;
  starErr   - str(e) of the TypeError raised by exec_fn(**args) when args is
              not a mapping;
  keyErr    - str(e) of the KeyError raised by self._tools_dict[name] for an
              unknown name (driver variant). -/
structure Env where
  tools : List ToolInfo
  execFn : String → PyDict → PyVal
  oracle : Nat → List Msg
  loadsErr : String → String
  starErr : String → String
  keyErr : String → String

/-- Per-request observable state of the loop.  messages is kept in reverse
order: the head is messages[-1], and appending a message is cons.
emitted collects the items yielded as response.output_item.done events,
errors the AgentLogger.log_error kinds, functionsCalled the
self._functions_called log, and execCalls counts entries into an exec_fn
body (the executor invocation count). -/
structure LoopState where
  messages : List Msg
  llmCalls : Nat
  execCalls : Nat
  functionsCalled : List String
  errors : List String
  emitted : List Msg
  apologyEmitted : Bool
  deriving DecidableEq

def initState (messages : List Msg) : LoopState :=
  { messages := messages.reverse
    llmCalls := 0
    execCalls := 0
    functionsCalled := []
    errors := []
    emitted := []
    apologyEmitted := false }

def appendOutput (st : LoopState) (cid result : String) : LoopState :=
  { st with messages := .functionCallOutput cid result :: st.messages
            emitted := st.emitted ++ [.functionCallOutput cid result] }

def logError (st : LoopState) (kind : String) : LoopState :=
  { st with errors := st.errors ++ [kind] }

structure ToolCall where
  name : String
  arguments : String
  callId : String
  deriving DecidableEq

/-! ## agent.py tool execution and tool-call handling -/

def instruction_suffix : String :=
  "\n\n[INSTRUCTION: After presenting this data, you MUST add a \x27### Next Best Actions:\x27 section with 3-5 specific, actionable recommendations based on this data. Be concrete and clinical in your recommendations.]"

def isListOrDict : PyVal → Bool
  | .list _ => true
  | .dict _ => true
  | _ => false

/-- agent.py 381-402: execute_tool records the call, runs exec_fn, formats
dict results one line per entry, list results as a table, anything else via
str, and appends the next-best-actions instruction when the raw result is a
truthy list or dict. -/
def execute_tool (env : Env) (toolName : String) (kwargs : PyDict) (st : LoopState) :
    String × LoopState :=
  let st2 :=
    { st with functionsCalled := st.functionsCalled ++ [toolName]
              execCalls := st.execCalls + 1 }
  let result := env.execFn toolName kwargs
  let formatted :=
    match result with
    | .dict kvs => format_dict_result kvs
    | .list xs => format_list_result xs
    | _ => pyStr result
  let formatted :=
    if isListOrDict result && pyTruthy result then formatted ++ instruction_suffix
    else formatted
  (formatted, st2)

def function_not_found_error : String :=
  "Error: Function not found. Please rephrase your query."

/-- Python dict comprehension at agent.py 447:
args = {k: v for k, v in args.items() if k and k.strip()}. -/
def dropEmptyKeys : PyDict → PyDict
  | .nil => .nil
  | .cons k v tail =>
    if k ≠ "" && pyStrip k ≠ "" then .cons k v (dropEmptyKeys tail)
    else dropEmptyKeys tail

/-- agent.py 433-482: handle_tool_call.  The whole body sits in a try; a
json.loads failure or an exec_fn(**args) unpacking failure lands in the
except branch, which logs tool_call_error and appends an error result.
Every path appends exactly one function_call_output message carrying the
original call id.

agent.py 449-462 is the required-parameter short-circuit: when the filtered
argument dict is falsy it looks the tool up and tests
hasattr(tool_info, "parameters"), which is False for every ToolInfo (see
hasattr_parameters), so the some-branch of shortCircuit below is dead code;
were it live, getattr(tool_info.parameters, "required", []) would feed the
parameter-missing error. -/
def handle_tool_call (env : Env) (tc : ToolCall) (st : LoopState) : LoopState :=
  let cleanName := sanitize_function_name tc.name
  match loads tc.arguments with
  | none =>
    appendOutput (logError st "tool_call_error") tc.callId
      ("Error executing tool: " ++ env.loadsErr tc.arguments)
  | some parsed =>
    let args : PyVal :=
      match parsed with
      | .dict kvs => .dict (dropEmptyKeys kvs)
      | v => v
    let shortCircuit : Option String :=
      if pyTruthy args then none
      else
        match lookup_tool env.tools cleanName with
        | some ti =>
          if hasattr_parameters ti then
            if ([] : List String) ≠ [] then
              some ("Error: This function requires parameters. Please provide: "
                ++ String.intercalate ", " [])
            else none
          else none
        | none => none
    match shortCircuit with
    | some r => appendOutput st tc.callId r
    | none =>
      match lookup_tool env.tools cleanName with
      | none => appendOutput st tc.callId function_not_found_error
      | some _ =>
        match args with
        | .dict kvs =>
          let er := execute_tool env cleanName kvs st
          appendOutput er.2 tc.callId er.1
        | _ =>
          let st2 := { st with functionsCalled := st.functionsCalled ++ [cleanName] }
          appendOutput (logError st2 "tool_call_error") tc.callId
            ("Error executing tool: " ++ env.starErr tc.arguments)

/-! ## agent.py orchestration loop (call_and_run_tools, 484-523) -/

/-- call_llm plus output_to_responses_items_stream: the k-th model call
appends its completed output items to the message list and yields them. -/
def modelStep (env : Env) (st : LoopState) : LoopState :=
  let items := env.oracle st.llmCalls
  { st with messages := items.reverse ++ st.messages
            llmCalls := st.llmCalls + 1
            emitted := st.emitted ++ items }

inductive StepRes where
  | ret
  | cont (st : LoopState)
  deriving DecidableEq

/-- One iteration of the for-loop body (agent.py 504-513): inspect
messages[-1]; an assistant role returns; a function_call type handles the
tool call; anything else asks the model.  messages[-1] on an empty list
would raise in Python; callers always pass a list holding at least the
system prompt, so the nil case (mapped to the model branch) is unreachable. -/
def loopStep (env : Env) (st : LoopState) : StepRes :=
  match st.messages with
  | [] => .cont (modelStep env st)
  | m :: _ =>
    if m.role = some "assistant" then .ret
    else if m.msgType = some "function_call" then
      match m with
      | .functionCall name args cid => .cont (handle_tool_call env ⟨name, args, cid⟩ st)
      | _ => .cont (modelStep env st)
    else .cont (modelStep env st)

def apology_text : String :=
  "I apologize, but I\x27m having trouble completing this request. Please try rephrasing or breaking it into simpler questions."

/-- The for-loop with the post-loop apology (agent.py 504-523): fuel counts
the remaining iterations; reaching 0 without an early return logs the
max_iterations error kind and yields the fixed apology item (which is not
appended to messages). -/
def runLoop (env : Env) : Nat → LoopState → LoopState
  | 0, st =>
    { st with errors := st.errors ++ ["max_iterations"]
              emitted := st.emitted ++ [.assistant apology_text]
              apologyEmitted := true }
  | fuel + 1, st =>
    match loopStep env st with
    | .ret => st
    | .cont st2 => runLoop env fuel st2

/-- agent.py 491-501: history truncation before the first iteration. -/
def truncate_history (messages : List Msg) : List Msg :=
  if 7 < messages.length then
    let recent := messages.drop (messages.length - 6)
    match messages with
    | m0 :: _ => if m0.role = some "system" then m0 :: recent else recent
    | [] => recent
  else messages

/-- agent.py 484-523: call_and_run_tools (max_iter defaults to 10). -/
def call_and_run_tools (env : Env) (maxIter : Nat) (messages : List Msg) : LoopState :=
  runLoop env maxIter (initState (truncate_history messages))

/-- The system prompt text is multi-page prose whose content the control
flow never inspects beyond nonemptiness; it is abbreviated here. -/
def SYSTEM_PROMPT : String := "You are the CareGaps Assistant for Akron Children\x27s Hospital."

/-- agent.py 525-566: predict drains predict_stream, which prepends the
system prompt (when nonempty) and runs the loop.  It performs no input
validation. -/
def agent_predict (env : Env) (input : List Msg) : LoopState :=
  let messages := if SYSTEM_PROMPT = "" then input else Msg.system SYSTEM_PROMPT :: input
  call_and_run_tools env 10 messages

/-! ## Driver-variant agent (caregaps_driver.py 426-631) -/

/-- caregaps_driver.py 443-447: execute_tool records the call and returns
exec_fn(**args) with no formatting; the dict lookup precedes the exec_fn
call, so an unknown name raises KeyError after the call is recorded, and a
non-mapping args raises TypeError before the executor body runs.  The
driver exec_fn applies PHI masking internally; env.execFn models its
returned (already masked) value. -/
def driver_handle_tool_call (env : Env) (tc : ToolCall) (st : LoopState) : LoopState :=
  match loads tc.arguments with
  | none =>
    appendOutput (logError st "tool_call_error") tc.callId
      ("Error executing tool: " ++ env.loadsErr tc.arguments)
  | some args =>
    let st2 := { st with functionsCalled := st.functionsCalled ++ [tc.name] }
    match lookup_tool env.tools tc.name with
    | none =>
      appendOutput (logError st2 "tool_call_error") tc.callId
        ("Error executing tool: " ++ env.keyErr tc.name)
    | some _ =>
      match args with
      | .dict kvs =>
        let st3 := { st2 with execCalls := st2.execCalls + 1 }
        appendOutput st3 tc.callId (pyStr (env.execFn tc.name kvs))
      | _ =>
        appendOutput (logError st2 "tool_call_error") tc.callId
          ("Error executing tool: " ++ env.starErr tc.arguments)

def driver_loopStep (env : Env) (st : LoopState) : StepRes :=
  match st.messages with
  | [] => .cont (modelStep env st)
  | m :: _ =>
    if m.role = some "assistant" then .ret
    else if m.msgType = some "function_call" then
      match m with
      | .functionCall name args cid =>
        .cont (driver_handle_tool_call env ⟨name, args, cid⟩ st)
      | _ => .cont (modelStep env st)
    else .cont (modelStep env st)

def driver_runLoop (env : Env) : Nat → LoopState → LoopState
  | 0, st =>
    { st with errors := st.errors ++ ["max_iterations"]
              emitted := st.emitted ++ [.assistant apology_text]
              apologyEmitted := true }
  | fuel + 1, st =>
    match driver_loopStep env st with
    | .ret => st
    | .cont st2 => driver_runLoop env fuel st2

/-- caregaps_driver.py 497-522: call_and_run_tools with max_iter defaulting
to 5 and no history truncation. -/
def driver_call_and_run_tools (env : Env) (maxIter : Nat) (messages : List Msg) : LoopState :=
  driver_runLoop env maxIter (initState messages)

def DRIVER_SYSTEM_PROMPT : String := "You are a Care Gaps Assistant for a pediatric healthcare system."

/-- The fixed privacy-notice item the driver predict_stream yields after the
loop; its prose is never inspected by the claims and is abbreviated. -/
def privacy_notice : Msg := Msg.assistant "Privacy Notice: sensitive patient information is partially masked."

structure PredictResult where
  output : List Msg
  llmCalls : Nat
  execCalls : Nat
  deriving DecidableEq

/-- caregaps_driver.py 551-555: user_query is str(last.content) when the
last input item has a content attribute, else the empty string. -/
def last_user_query (input : List Msg) : String :=
  match input.getLast? with
  | some m => (m.content).getD ""
  | none => ""

/-- caregaps_driver.py 544-631: predict validates the last user message with
InputValidator.is_safe_input and returns the rejection text without entering
the loop when validation fails; otherwise it sanitizes the query (the
sanitized text is not used further), streams the loop with max_iter 5, and
appends the privacy notice. -/
def driver_predict (env : Env) (input : List Msg) : PredictResult :=
  let v := is_safe_input (last_user_query input)
  if v.1 = false then
    { output := [Msg.assistant ("I cannot process this request: " ++ v.2)]
      llmCalls := 0
      execCalls := 0 }
  else
    let messages :=
      if DRIVER_SYSTEM_PROMPT = "" then input else Msg.system DRIVER_SYSTEM_PROMPT :: input
    let st := driver_call_and_run_tools env 5 messages
    { output := st.emitted ++ [privacy_notice]
      llmCalls := st.llmCalls
      execCalls := st.execCalls }

/-! ## Iteration-start trace for the loop theorems -/

/-- The heads of the message list (messages[-1]) observed at the start of
each executed iteration, following the same recursion as runLoop. -/
def loopHeads (env : Env) : Nat → LoopState → List (Option Msg)
  | 0, _ => []
  | fuel + 1, st =>
    st.messages.head? ::
      (match loopStep env st with
       | .ret => []
       | .cont st2 => loopHeads env fuel st2)

def driver_loopHeads (env : Env) : Nat → LoopState → List (Option Msg)
  | 0, _ => []
  | fuel + 1, st =>
    st.messages.head? ::
      (match driver_loopStep env st with
       | .ret => []
       | .cont st2 => driver_loopHeads env fuel st2)

/-! ## Concrete sample data used by the closed theorems -/

/-- str(e) of a json.JSONDecodeError on input that is not JSON. -/
def jsonErrText : String := "Expecting value: line 1 column 1 (char 0)"

/-- A registry holding one tool that declares a required parameter, with an
executor returning an empty result list. -/
def envEmptyArgs : Env :=
  { tools := [{ name := "dev_kiddo__silver__get_patient_gaps", requiredParams := ["patient_mrn"] }]
    execFn := fun _ _ => PyVal.list .nil
    oracle := fun _ => []
    loadsErr := fun _ => jsonErrText
    starErr := fun _ => ""
    keyErr := fun n => "\x27" ++ n ++ "\x27" }

/-- A model that issues four tool calls, then a reasoning item, then the
final assistant answer: the answer lands in the tenth and last iteration. -/
def exhaustionOracle : Nat → List Msg := fun k =>
  if k = 0 then [.functionCall "lookup_gaps" "\x7b\x7d" "c0"]
  else if k = 1 then [.functionCall "lookup_gaps" "\x7b\x7d" "c1"]
  else if k = 2 then [.functionCall "lookup_gaps" "\x7b\x7d" "c2"]
  else if k = 3 then [.functionCall "lookup_gaps" "\x7b\x7d" "c3"]
  else if k = 4 then [.reasoning "deliberation"]
  else [.assistant "All caught up."]

def envExhaustion : Env :=
  { tools := []
    execFn := fun _ _ => PyVal.null
    oracle := exhaustionOracle
    loadsErr := fun _ => jsonErrText
    starErr := fun _ => ""
    keyErr := fun n => "\x27" ++ n ++ "\x27" }

/-- A registry with no tools and a model that answers immediately. -/
def envUnknownTool : Env :=
  { tools := []
    execFn := fun _ _ => PyVal.null
    oracle := fun _ => [.assistant "ok"]
    loadsErr := fun _ => jsonErrText
    starErr := fun _ => ""
    keyErr := fun n => "\x27" ++ n ++ "\x27" }

/-- A loop state whose last message is a pending tool call. -/
def stPendingCall : LoopState :=
  { messages := [Msg.functionCall "get_gap_statistics" "\x7b\"limit_rows\": 5\x7d" "cw"]
    llmCalls := 0
    execCalls := 0
    functionsCalled := []
    errors := []
    emitted := []
    apologyEmitted := false }

/-- An over-long input: 1001 repetitions of one character. -/
def longInput : String := String.mk (List.replicate 1001 'a')

def dangerousInput : String := "; DROP TABLE x; --"

/-- A concrete record list for the formatter witness. -/
def sampleRecs : List PyDict :=
  [PyDict.ofList [("patient_name", .str "John Smith"), ("open_gaps", .int 3)],
   PyDict.ofList [("patient_name", .str "Ana Lee"), ("open_gaps", .int 1)]]

def sampleJsonRecord : String := "\x7b\"patient_name\": \"John Smith\", \"mrn\": \"123456789\"\x7d"

def sampleJsonList : String := "[\x7b\"patient_name\": \"John Smith\"\x7d]"

def oneRec : PyDict := PyDict.cons "patient_name" (PyVal.str "John Smith") PyDict.nil

def nineMsgs : List Msg :=
  [Msg.system "s", .user "1", .user "2", .user "3", .user "4", .user "5",
   .user "6", .user "7", .user "8"]

/-! # Theorems -/

/-! ## Generic helper lemmas -/

theorem string_mk_data (s : String) : String.mk s.data = s := by
  cases s
  rfl

theorem string_length_eq_data (s : String) : s.length = s.data.length := rfl

theorem removeAux_not_contains (pat : List Char) :
    ∀ fuel s, containsSub pat s = false → removeAux pat fuel s = s := by
  intro fuel
  induction fuel with
  | zero => intro s _; rfl
  | succ n ih =>
    intro s h
    match s with
    | [] => rfl
    | c :: rest =>
      unfold containsSub at h
      rw [Bool.or_eq_false_iff] at h
      unfold removeAux
      rw [h.1]
      simp only [Bool.and_false, Bool.false_eq_true, if_false, ih rest h.2]

theorem removeOccurrences_not_contains (pat s : String) (h : strContains pat s = false) :
    removeOccurrences pat s = s := by
  unfold removeOccurrences
  rw [removeAux_not_contains pat.data _ s.data h, string_mk_data]

theorem sanitize_clean (s : String)
    (h : ∀ t ∈ BAD_TOKENS, strContains t s = false) :
    sanitize_function_name s = s := by
  unfold sanitize_function_name
  by_cases hs : s = ""
  · simp [hs]
  · rw [if_neg hs]
    simp only [BAD_TOKENS, List.foldl_cons, List.foldl_nil]
    rw [removeOccurrences_not_contains _ _ (h _ (by decide)),
      removeOccurrences_not_contains _ _ (h _ (by decide)),
      removeOccurrences_not_contains _ _ (h _ (by decide)),
      removeOccurrences_not_contains _ _ (h _ (by decide)),
      removeOccurrences_not_contains _ _ (h _ (by decide)),
      removeOccurrences_not_contains _ _ (h _ (by decide))]

/-- C4 (amended): name repair is not idempotent in general, but it fixes
every name containing none of the bad tokens - in particular an
already-clean name is returned unchanged - and repairing
"get_stats<|channel|>commentary" yields "get_stats". -/
theorem c4_sanitize_amended (s : String)
    (h : ∀ t ∈ BAD_TOKENS, strContains t s = false) :
    sanitize_function_name s = s
      ∧ sanitize_function_name "get_stats<|channel|>commentary" = "get_stats" :=
  ⟨sanitize_clean s h, rfl⟩

theorem c4_sanitize_witness :
    (∀ t ∈ BAD_TOKENS, strContains t "get_patient_360" = false)
      ∧ (sanitize_function_name "get_patient_360" = "get_patient_360"
        ∧ sanitize_function_name "get_stats<|channel|>commentary" = "get_stats") :=
  ⟨by decide, c4_sanitize_amended "get_patient_360" (by decide)⟩

/-- C4 counterexample: repairing "chanchannelnel" removes the inner
occurrence of channel and thereby creates a fresh one, so a second repair
still changes the name: repair is not idempotent for every string. -/
theorem c4_sanitize_counterexample :
    sanitize_function_name (sanitize_function_name "chanchannelnel")
      ≠ sanitize_function_name "chanchannelnel" := by decide

/-- C5: lists longer than 7 are compacted to the leading system message
(when present) plus exactly the last 6 messages, so at most 7 survive; the
leading system message survives whenever the first message has role system;
shorter lists are unchanged. -/
theorem c5_truncation (msgs : List Msg) :
    (msgs.length ≤ 7 → truncate_history msgs = msgs)
  ∧ (7 < msgs.length → ∀ m0 rest, msgs = m0 :: rest →
      (m0.role = some "system" →
        truncate_history msgs = m0 :: msgs.drop (msgs.length - 6)
          ∧ (truncate_history msgs).length = 7)
      ∧ (m0.role ≠ some "system" →
        truncate_history msgs = msgs.drop (msgs.length - 6)
          ∧ (truncate_history msgs).length = 6))
  ∧ (truncate_history msgs).length ≤ 7 := by
  refine ⟨?_, ?_, ?_⟩
  · intro h
    unfold truncate_history
    rw [if_neg (by omega)]
  · intro h m0 rest hm
    subst hm
    have hd : ((m0 :: rest).drop ((m0 :: rest).length - 6)).length = 6 := by
      rw [List.length_drop]
      simp only [List.length_cons] at h ⊢
      omega
    constructor
    · intro hrole
      have ht : truncate_history (m0 :: rest)
          = m0 :: (m0 :: rest).drop ((m0 :: rest).length - 6) := by
        unfold truncate_history
        rw [if_pos h]
        simp [hrole]
      exact ⟨ht, by rw [ht, List.length_cons, hd]⟩
    · intro hrole
      have ht : truncate_history (m0 :: rest)
          = (m0 :: rest).drop ((m0 :: rest).length - 6) := by
        unfold truncate_history
        rw [if_pos h]
        simp [hrole]
      exact ⟨ht, by rw [ht, hd]⟩
  · by_cases h : 7 < msgs.length
    · cases msgs with
      | nil => simp at h
      | cons m0 rest =>
        unfold truncate_history
        rw [if_pos h]
        by_cases hrole : m0.role = some "system" <;>
          simp [hrole, List.length_drop] <;> omega
    · unfold truncate_history
      rw [if_neg h]
      omega

theorem c5_truncation_witness :
    7 < nineMsgs.length
  ∧ (Msg.system "s").role = some "system"
  ∧ truncate_history nineMsgs = Msg.system "s" :: nineMsgs.drop (nineMsgs.length - 6)
  ∧ (truncate_history nineMsgs).length = 7 := by
  have hmain := ((c5_truncation nineMsgs).2.1 (by decide)
    (Msg.system "s")
    [.user "1", .user "2", .user "3", .user "4", .user "5", .user "6", .user "7", .user "8"]
    rfl).1 rfl
  exact ⟨by decide, rfl, hmain.1, hmain.2⟩
/-! ## Structural lemmas about the tool-call handlers -/

theorem handle_messages_cons (env : Env) (tc : ToolCall) (st : LoopState) :
    ∃ r, (handle_tool_call env tc st).messages
      = Msg.functionCallOutput tc.callId r :: st.messages := by
  unfold handle_tool_call
  dsimp only
  repeat' split
  all_goals exact ⟨_, rfl⟩

theorem handle_apologyEmitted (env : Env) (tc : ToolCall) (st : LoopState) :
    (handle_tool_call env tc st).apologyEmitted = st.apologyEmitted := by
  unfold handle_tool_call
  dsimp only
  repeat' split
  all_goals rfl

theorem handle_errors (env : Env) (tc : ToolCall) (st : LoopState) :
    (handle_tool_call env tc st).errors = st.errors
      ∨ (handle_tool_call env tc st).errors = st.errors ++ ["tool_call_error"] := by
  unfold handle_tool_call
  dsimp only
  repeat' split
  all_goals first
    | (left; rfl)
    | (right; rfl)

theorem handle_maxiter_mem (env : Env) (tc : ToolCall) (st : LoopState) :
    ("max_iterations" ∈ (handle_tool_call env tc st).errors
      ↔ "max_iterations" ∈ st.errors) := by
  rcases handle_errors env tc st with h | h
  · rw [h]
  · rw [h]
    simp

theorem driver_handle_messages_cons (env : Env) (tc : ToolCall) (st : LoopState) :
    ∃ r, (driver_handle_tool_call env tc st).messages
      = Msg.functionCallOutput tc.callId r :: st.messages := by
  unfold driver_handle_tool_call
  dsimp only
  repeat' split
  all_goals exact ⟨_, rfl⟩

theorem driver_handle_apologyEmitted (env : Env) (tc : ToolCall) (st : LoopState) :
    (driver_handle_tool_call env tc st).apologyEmitted = st.apologyEmitted := by
  unfold driver_handle_tool_call
  dsimp only
  repeat' split
  all_goals rfl

theorem driver_handle_errors (env : Env) (tc : ToolCall) (st : LoopState) :
    (driver_handle_tool_call env tc st).errors = st.errors
      ∨ (driver_handle_tool_call env tc st).errors = st.errors ++ ["tool_call_error"] := by
  unfold driver_handle_tool_call
  dsimp only
  repeat' split
  all_goals first
    | (left; rfl)
    | (right; rfl)

theorem driver_handle_maxiter_mem (env : Env) (tc : ToolCall) (st : LoopState) :
    ("max_iterations" ∈ (driver_handle_tool_call env tc st).errors
      ↔ "max_iterations" ∈ st.errors) := by
  rcases driver_handle_errors env tc st with h | h
  · rw [h]
  · rw [h]
    simp

/-! ## Lemmas about one loop iteration -/

theorem loopStep_ret (env : Env) (st : LoopState) (h : loopStep env st = .ret) :
    ∃ m rest, st.messages = m :: rest ∧ m.role = some "assistant" := by
  obtain ⟨msgs, l1, l2, l3, l4, l5, l6⟩ := st
  cases msgs with
  | nil => cases h
  | cons m rest =>
    unfold loopStep at h
    dsimp only at h
    by_cases hrole : m.role = some "assistant"
    · exact ⟨m, rest, rfl, hrole⟩
    · exfalso
      rw [if_neg hrole] at h
      by_cases htype : m.msgType = some "function_call"
      · rw [if_pos htype] at h
        cases m <;> cases h
      · rw [if_neg htype] at h
        cases h

theorem loopStep_cont_apology (env : Env) (st st2 : LoopState)
    (h : loopStep env st = .cont st2) :
    st2.apologyEmitted = st.apologyEmitted := by
  obtain ⟨msgs, l1, l2, l3, l4, l5, l6⟩ := st
  cases msgs with
  | nil =>
    cases h
    rfl
  | cons m rest =>
    unfold loopStep at h
    dsimp only at h
    by_cases hrole : m.role = some "assistant"
    · rw [if_pos hrole] at h
      cases h
    · rw [if_neg hrole] at h
      by_cases htype : m.msgType = some "function_call"
      · rw [if_pos htype] at h
        cases m <;> cases h <;> first
          | rfl
          | exact handle_apologyEmitted _ _ _
      · rw [if_neg htype] at h
        cases h
        rfl

theorem loopStep_cont_maxiter (env : Env) (st st2 : LoopState)
    (h : loopStep env st = .cont st2) :
    ("max_iterations" ∈ st2.errors ↔ "max_iterations" ∈ st.errors) := by
  obtain ⟨msgs, l1, l2, l3, l4, l5, l6⟩ := st
  cases msgs with
  | nil =>
    cases h
    exact Iff.rfl
  | cons m rest =>
    unfold loopStep at h
    dsimp only at h
    by_cases hrole : m.role = some "assistant"
    · rw [if_pos hrole] at h
      cases h
    · rw [if_neg hrole] at h
      by_cases htype : m.msgType = some "function_call"
      · rw [if_pos htype] at h
        cases m <;> cases h <;> first
          | exact Iff.rfl
          | exact handle_maxiter_mem _ _ _
      · rw [if_neg htype] at h
        cases h
        exact Iff.rfl

theorem loopStep_cont_head (env : Env) (st st2 : LoopState)
    (h : loopStep env st = .cont st2) :
    ∀ m, st.messages.head? = some m → m.role ≠ some "assistant" := by
  intro m hm hrole
  obtain ⟨msgs, l1, l2, l3, l4, l5, l6⟩ := st
  cases msgs with
  | nil => cases hm
  | cons m0 rest =>
    replace hm : m0 = m := by
      have : some m0 = some m := hm
      cases this
      rfl
    subst hm
    unfold loopStep at h
    dsimp only at h
    rw [if_pos hrole] at h
    cases h

theorem driver_loopStep_ret (env : Env) (st : LoopState)
    (h : driver_loopStep env st = .ret) :
    ∃ m rest, st.messages = m :: rest ∧ m.role = some "assistant" := by
  obtain ⟨msgs, l1, l2, l3, l4, l5, l6⟩ := st
  cases msgs with
  | nil => cases h
  | cons m rest =>
    unfold driver_loopStep at h
    dsimp only at h
    by_cases hrole : m.role = some "assistant"
    · exact ⟨m, rest, rfl, hrole⟩
    · exfalso
      rw [if_neg hrole] at h
      by_cases htype : m.msgType = some "function_call"
      · rw [if_pos htype] at h
        cases m <;> cases h
      · rw [if_neg htype] at h
        cases h

theorem driver_loopStep_cont_apology (env : Env) (st st2 : LoopState)
    (h : driver_loopStep env st = .cont st2) :
    st2.apologyEmitted = st.apologyEmitted := by
  obtain ⟨msgs, l1, l2, l3, l4, l5, l6⟩ := st
  cases msgs with
  | nil =>
    cases h
    rfl
  | cons m rest =>
    unfold driver_loopStep at h
    dsimp only at h
    by_cases hrole : m.role = some "assistant"
    · rw [if_pos hrole] at h
      cases h
    · rw [if_neg hrole] at h
      by_cases htype : m.msgType = some "function_call"
      · rw [if_pos htype] at h
        cases m <;> cases h <;> first
          | rfl
          | exact driver_handle_apologyEmitted _ _ _
      · rw [if_neg htype] at h
        cases h
        rfl

theorem driver_loopStep_cont_maxiter (env : Env) (st st2 : LoopState)
    (h : driver_loopStep env st = .cont st2) :
    ("max_iterations" ∈ st2.errors ↔ "max_iterations" ∈ st.errors) := by
  obtain ⟨msgs, l1, l2, l3, l4, l5, l6⟩ := st
  cases msgs with
  | nil =>
    cases h
    exact Iff.rfl
  | cons m rest =>
    unfold driver_loopStep at h
    dsimp only at h
    by_cases hrole : m.role = some "assistant"
    · rw [if_pos hrole] at h
      cases h
    · rw [if_neg hrole] at h
      by_cases htype : m.msgType = some "function_call"
      · rw [if_pos htype] at h
        cases m <;> cases h <;> first
          | exact Iff.rfl
          | exact driver_handle_maxiter_mem _ _ _
      · rw [if_neg htype] at h
        cases h
        exact Iff.rfl

theorem driver_loopStep_cont_head (env : Env) (st st2 : LoopState)
    (h : driver_loopStep env st = .cont st2) :
    ∀ m, st.messages.head? = some m → m.role ≠ some "assistant" := by
  intro m hm hrole
  obtain ⟨msgs, l1, l2, l3, l4, l5, l6⟩ := st
  cases msgs with
  | nil => cases hm
  | cons m0 rest =>
    replace hm : m0 = m := by
      have : some m0 = some m := hm
      cases this
      rfl
    subst hm
    unfold driver_loopStep at h
    dsimp only at h
    rw [if_pos hrole] at h
    cases h

theorem runLoop_apology_iff (env : Env) :
    ∀ fuel st, st.apologyEmitted = false →
      ((runLoop env fuel st).apologyEmitted = true
        ↔ ∀ o ∈ loopHeads env fuel st, ∀ m, o = some m → m.role ≠ some "assistant") := by
  intro fuel
  induction fuel with
  | zero =>
    intro st h0
    constructor
    · intro _ o ho
      simp [loopHeads] at ho
    · intro _
      rfl
  | succ n ih =>
    intro st h0
    cases hstep : loopStep env st with
    | ret =>
      obtain ⟨m, rest, hm, hrole⟩ := loopStep_ret env st hstep
      simp only [runLoop, loopHeads, hstep]
      constructor
      · intro hap
        rw [h0] at hap
        cases hap
      · intro hall
        exfalso
        refine hall (some m) ?_ m rfl hrole
        rw [hm]
        simp
    | cont st2 =>
      have h0b : st2.apologyEmitted = false :=
        (loopStep_cont_apology env st st2 hstep).trans h0
      have hhead := loopStep_cont_head env st st2 hstep
      simp only [runLoop, loopHeads, hstep]
      rw [ih st2 h0b]
      constructor
      · intro hall o ho m hom
        rcases List.mem_cons.mp ho with rfl | h2
        · exact hhead m hom
        · exact hall o h2 m hom
      · intro hall o ho m hom
        exact hall o (List.mem_cons_of_mem _ ho) m hom

theorem runLoop_maxiter_iff (env : Env) :
    ∀ fuel st, st.apologyEmitted = false → "max_iterations" ∉ st.errors →
      ((runLoop env fuel st).apologyEmitted = true
        ↔ "max_iterations" ∈ (runLoop env fuel st).errors) := by
  intro fuel
  induction fuel with
  | zero =>
    intro st h0 h1
    simp only [runLoop]
    constructor
    · intro _
      simp
    · intro _
      trivial
  | succ n ih =>
    intro st h0 h1
    cases hstep : loopStep env st with
    | ret =>
      simp only [runLoop, hstep]
      constructor
      · intro hap
        rw [h0] at hap
        cases hap
      · intro hmem
        exact absurd hmem h1
    | cont st2 =>
      have h0b : st2.apologyEmitted = false :=
        (loopStep_cont_apology env st st2 hstep).trans h0
      have h1b : "max_iterations" ∉ st2.errors := fun hmem =>
        h1 ((loopStep_cont_maxiter env st st2 hstep).mp hmem)
      simp only [runLoop, hstep]
      exact ih st2 h0b h1b

theorem driver_runLoop_apology_iff (env : Env) :
    ∀ fuel st, st.apologyEmitted = false →
      ((driver_runLoop env fuel st).apologyEmitted = true
        ↔ ∀ o ∈ driver_loopHeads env fuel st, ∀ m, o = some m → m.role ≠ some "assistant") := by
  intro fuel
  induction fuel with
  | zero =>
    intro st h0
    constructor
    · intro _ o ho
      simp [driver_loopHeads] at ho
    · intro _
      rfl
  | succ n ih =>
    intro st h0
    cases hstep : driver_loopStep env st with
    | ret =>
      obtain ⟨m, rest, hm, hrole⟩ := driver_loopStep_ret env st hstep
      simp only [driver_runLoop, driver_loopHeads, hstep]
      constructor
      · intro hap
        rw [h0] at hap
        cases hap
      · intro hall
        exfalso
        refine hall (some m) ?_ m rfl hrole
        rw [hm]
        simp
    | cont st2 =>
      have h0b : st2.apologyEmitted = false :=
        (driver_loopStep_cont_apology env st st2 hstep).trans h0
      have hhead := driver_loopStep_cont_head env st st2 hstep
      simp only [driver_runLoop, driver_loopHeads, hstep]
      rw [ih st2 h0b]
      constructor
      · intro hall o ho m hom
        rcases List.mem_cons.mp ho with rfl | h2
        · exact hhead m hom
        · exact hall o h2 m hom
      · intro hall o ho m hom
        exact hall o (List.mem_cons_of_mem _ ho) m hom

theorem driver_runLoop_maxiter_iff (env : Env) :
    ∀ fuel st, st.apologyEmitted = false → "max_iterations" ∉ st.errors →
      ((driver_runLoop env fuel st).apologyEmitted = true
        ↔ "max_iterations" ∈ (driver_runLoop env fuel st).errors) := by
  intro fuel
  induction fuel with
  | zero =>
    intro st h0 h1
    simp only [driver_runLoop]
    constructor
    · intro _
      simp
    · intro _
      trivial
  | succ n ih =>
    intro st h0 h1
    cases hstep : driver_loopStep env st with
    | ret =>
      simp only [driver_runLoop, hstep]
      constructor
      · intro hap
        rw [h0] at hap
        cases hap
      · intro hmem
        exact absurd hmem h1
    | cont st2 =>
      have h0b : st2.apologyEmitted = false :=
        (driver_loopStep_cont_apology env st st2 hstep).trans h0
      have h1b : "max_iterations" ∉ st2.errors := fun hmem =>
        h1 ((driver_loopStep_cont_maxiter env st st2 hstep).mp hmem)
      simp only [driver_runLoop, hstep]
      exact ih st2 h0b h1b

/-- C2 (amended): the loop emits the fixed apology exactly when it runs out
of iterations without an early return, that is, when no iteration start ever
observes an assistant-role last message - even if the final iteration itself
produced a terminal assistant message; the exhaustion is logged under the
error kind max_iterations (and only then); the loop is a total function, so
no exception reaches the caller.  Both the primary loop (ceiling 10, with
history truncation) and the driver loop (ceiling 5) are covered, for every
ceiling value. -/
theorem c2_exhaustion_amended (env : Env) (maxIter : Nat) (messages : List Msg) :
    ((call_and_run_tools env maxIter messages).apologyEmitted = true
      ↔ ∀ o ∈ loopHeads env maxIter (initState (truncate_history messages)),
          ∀ m, o = some m → m.role ≠ some "assistant")
  ∧ ((call_and_run_tools env maxIter messages).apologyEmitted = true
      ↔ "max_iterations" ∈ (call_and_run_tools env maxIter messages).errors)
  ∧ ((driver_call_and_run_tools env maxIter messages).apologyEmitted = true
      ↔ ∀ o ∈ driver_loopHeads env maxIter (initState messages),
          ∀ m, o = some m → m.role ≠ some "assistant")
  ∧ ((driver_call_and_run_tools env maxIter messages).apologyEmitted = true
      ↔ "max_iterations" ∈ (driver_call_and_run_tools env maxIter messages).errors) := by
  refine ⟨?_, ?_, ?_, ?_⟩
  · exact runLoop_apology_iff env maxIter (initState (truncate_history messages)) rfl
  · exact runLoop_maxiter_iff env maxIter (initState (truncate_history messages)) rfl
      (by simp [initState])
  · exact driver_runLoop_apology_iff env maxIter (initState messages) rfl
  · exact driver_runLoop_maxiter_iff env maxIter (initState messages) rfl
      (by simp [initState])

/-- C2 counterexample: a run of the primary loop in which the model produces
the terminal assistant answer during the tenth and final iteration.  The
ceiling is reached AND the last message is a terminal assistant message, yet
the apology is still emitted - refuting the claimed "if and only if the
ceiling is reached without the last message being a terminal assistant
message". -/
theorem c2_exhaustion_counterexample :
    (agent_predict envExhaustion [Msg.user "Show me critical gaps"]).apologyEmitted = true
  ∧ (agent_predict envExhaustion [Msg.user "Show me critical gaps"]).messages.head?
      = some (Msg.assistant "All caught up.") :=
  ⟨rfl, rfl⟩

theorem loopStep_output_head (env : Env) (st : LoopState) (cid out : String)
    (rest : List Msg) (hm : st.messages = Msg.functionCallOutput cid out :: rest) :
    loopStep env st = .cont (modelStep env st) := by
  obtain ⟨msgs, l1, l2, l3, l4, l5, l6⟩ := st
  replace hm : msgs = Msg.functionCallOutput cid out :: rest := hm
  subst hm
  rfl

/-- C9: handling a pending tool call appends exactly one message, a
function_call_output carrying the original call id, and the next iteration
then necessarily requests the model (it cannot read a second tool call
without an intervening model turn). -/
theorem c9_single_append (env : Env) (st : LoopState) (name args cid : String)
    (h : st.messages.head? = some (Msg.functionCall name args cid)) :
    loopStep env st = .cont (handle_tool_call env ⟨name, args, cid⟩ st)
  ∧ (handle_tool_call env ⟨name, args, cid⟩ st).messages.length = st.messages.length + 1
  ∧ (∃ r, (handle_tool_call env ⟨name, args, cid⟩ st).messages.head?
      = some (Msg.functionCallOutput cid r))
  ∧ loopStep env (handle_tool_call env ⟨name, args, cid⟩ st)
      = .cont (modelStep env (handle_tool_call env ⟨name, args, cid⟩ st)) := by
  obtain ⟨r, hr⟩ := handle_messages_cons env ⟨name, args, cid⟩ st
  refine ⟨?_, ?_, ⟨r, ?_⟩, ?_⟩
  · obtain ⟨msgs, l1, l2, l3, l4, l5, l6⟩ := st
    cases msgs with
    | nil => cases h
    | cons m rest =>
      replace h : m = Msg.functionCall name args cid := by
        have h2 : some m = some (Msg.functionCall name args cid) := h
        cases h2
        rfl
      subst h
      rfl
  · rw [hr]
    rfl
  · rw [hr]
    rfl
  · exact loopStep_output_head env _ cid r st.messages hr

theorem c9_single_append_witness :
    stPendingCall.messages.head?
      = some (Msg.functionCall "get_gap_statistics" "\x7b\"limit_rows\": 5\x7d" "cw")
  ∧ (loopStep envEmptyArgs stPendingCall
      = .cont (handle_tool_call envEmptyArgs
          ⟨"get_gap_statistics", "\x7b\"limit_rows\": 5\x7d", "cw"⟩ stPendingCall)
    ∧ (handle_tool_call envEmptyArgs ⟨"get_gap_statistics", "\x7b\"limit_rows\": 5\x7d", "cw"⟩
        stPendingCall).messages.length = stPendingCall.messages.length + 1
    ∧ (∃ r, (handle_tool_call envEmptyArgs ⟨"get_gap_statistics", "\x7b\"limit_rows\": 5\x7d", "cw"⟩
        stPendingCall).messages.head? = some (Msg.functionCallOutput "cw" r))
    ∧ loopStep envEmptyArgs
        (handle_tool_call envEmptyArgs ⟨"get_gap_statistics", "\x7b\"limit_rows\": 5\x7d", "cw"⟩
          stPendingCall)
      = .cont (modelStep envEmptyArgs
          (handle_tool_call envEmptyArgs ⟨"get_gap_statistics", "\x7b\"limit_rows\": 5\x7d", "cw"⟩
            stPendingCall))) :=
  ⟨rfl, c9_single_append envEmptyArgs stPendingCall _ _ _ rfl⟩

theorem handle_not_found (env : Env) (tc : ToolCall) (st : LoopState) (v : PyVal)
    (hload : loads tc.arguments = some v)
    (hlook : lookup_tool env.tools (sanitize_function_name tc.name) = none) :
    handle_tool_call env tc st = appendOutput st tc.callId function_not_found_error := by
  unfold handle_tool_call
  rw [hload]
  dsimp only
  simp only [hlook, ite_self]

theorem handle_unresolved_exec (env : Env) (tc : ToolCall) (st : LoopState)
    (hlook : lookup_tool env.tools (sanitize_function_name tc.name) = none) :
    (handle_tool_call env tc st).execCalls = st.execCalls := by
  cases hload : loads tc.arguments with
  | none =>
    unfold handle_tool_call
    rw [hload]
    rfl
  | some v =>
    rw [handle_not_found env tc st v hload hlook]
    rfl

theorem driver_handle_not_found (env : Env) (tc : ToolCall) (st : LoopState) (v : PyVal)
    (hload : loads tc.arguments = some v)
    (hlook : lookup_tool env.tools tc.name = none) :
    driver_handle_tool_call env tc st
      = appendOutput
          (logError { st with functionsCalled := st.functionsCalled ++ [tc.name] }
            "tool_call_error")
          tc.callId ("Error executing tool: " ++ env.keyErr tc.name) := by
  unfold driver_handle_tool_call
  rw [hload]
  dsimp only
  simp only [hlook]

/-- C3 (amended): when the repaired name is not in the registry the primary
handler appends the fixed function-not-found text provided the raw argument
payload parses as JSON (a payload that fails json.loads is surfaced as a
generic tool-execution error instead); in every case no executor is invoked
for the unresolved name.  The earlier driver-variant handler, which performs
no lookup before indexing the registry, surfaces an unknown name as the
KeyError text of a generic tool-execution error, also without invoking any
executor. -/
theorem c3_not_found_amended :
    (∀ (env : Env) (tc : ToolCall) (st : LoopState) (v : PyVal),
      loads tc.arguments = some v →
      lookup_tool env.tools (sanitize_function_name tc.name) = none →
        handle_tool_call env tc st = appendOutput st tc.callId function_not_found_error
        ∧ (handle_tool_call env tc st).execCalls = st.execCalls)
  ∧ (∀ (env : Env) (tc : ToolCall) (st : LoopState),
      lookup_tool env.tools (sanitize_function_name tc.name) = none →
        (handle_tool_call env tc st).execCalls = st.execCalls)
  ∧ (∀ (env : Env) (tc : ToolCall) (st : LoopState) (v : PyVal),
      loads tc.arguments = some v →
      lookup_tool env.tools tc.name = none →
        driver_handle_tool_call env tc st
          = appendOutput
              (logError { st with functionsCalled := st.functionsCalled ++ [tc.name] }
                "tool_call_error")
              tc.callId ("Error executing tool: " ++ env.keyErr tc.name)
        ∧ (driver_handle_tool_call env tc st).execCalls = st.execCalls) := by
  refine ⟨?_, handle_unresolved_exec, ?_⟩
  · intro env tc st v hload hlook
    have heq := handle_not_found env tc st v hload hlook
    exact ⟨heq, by rw [heq]; rfl⟩
  · intro env tc st v hload hlook
    have heq := driver_handle_not_found env tc st v hload hlook
    exact ⟨heq, by rw [heq]; rfl⟩

/-- C3 counterexample: a tool call whose repaired name is unknown AND whose
raw argument payload is not JSON is answered with the generic
tool-execution-error text produced by the except branch, not with the fixed
function-not-found text the claim promises for every unresolved name (the
executor is still not invoked). -/
theorem c3_not_found_counterexample :
    lookup_tool envUnknownTool.tools (sanitize_function_name "nonexistent_tool") = none
  ∧ (handle_tool_call envUnknownTool ⟨"nonexistent_tool", "oops", "c9"⟩
      (initState [])).messages.head?
      = some (Msg.functionCallOutput "c9" ("Error executing tool: " ++ jsonErrText))
  ∧ ("Error executing tool: " ++ jsonErrText) ≠ function_not_found_error
  ∧ (handle_tool_call envUnknownTool ⟨"nonexistent_tool", "oops", "c9"⟩
      (initState [])).execCalls = 0 :=
  ⟨rfl, rfl, by decide, rfl⟩

theorem c3_not_found_witness :
    loads "\x7b\x7d" = some (.dict .nil)
  ∧ lookup_tool envUnknownTool.tools (sanitize_function_name "ghost_tool") = none
  ∧ (handle_tool_call envUnknownTool ⟨"ghost_tool", "\x7b\x7d", "c1"⟩ (initState [])
      = appendOutput (initState []) "c1" function_not_found_error
    ∧ (handle_tool_call envUnknownTool ⟨"ghost_tool", "\x7b\x7d", "c1"⟩
        (initState [])).execCalls = (initState ([] : List Msg)).execCalls) :=
  ⟨rfl, rfl,
    c3_not_found_amended.1 envUnknownTool ⟨"ghost_tool", "\x7b\x7d", "c1"⟩ (initState [])
      (.dict .nil) rfl rfl⟩

/-- C1 (code bug): the required-parameter short-circuit can never fire, as
ToolInfo declares no attribute named parameters; with a registered tool that
declares a required parameter and an argument payload that is empty after
dropping empty keys, the handler still invokes the executor (invocation
count 1) and appends the executor result instead of the parameter-missing
error the spec promises. -/
theorem c1_dead_required_check :
    (lookup_tool envEmptyArgs.tools "dev_kiddo__silver__get_patient_gaps").map
        ToolInfo.requiredParams = some ["patient_mrn"]
  ∧ (∀ t : ToolInfo, hasattr_parameters t = false)
  ∧ loads "\x7b\"\": \"\"\x7d" = some (.dict (.cons "" (.str "") .nil))
  ∧ dropEmptyKeys (.cons "" (.str "") .nil) = .nil
  ∧ (handle_tool_call envEmptyArgs
      ⟨"dev_kiddo__silver__get_patient_gaps", "\x7b\"\": \"\"\x7d", "call_0"⟩
      (initState [])).execCalls = 1
  ∧ (handle_tool_call envEmptyArgs
      ⟨"dev_kiddo__silver__get_patient_gaps", "\x7b\"\": \"\"\x7d", "call_0"⟩
      (initState [])).messages.head?
      = some (Msg.functionCallOutput "call_0" "No results found.")
  ∧ (handle_tool_call envEmptyArgs
      ⟨"dev_kiddo__silver__get_patient_gaps", "\x7b\"\": \"\"\x7d", "call_0"⟩
      (initState [])).functionsCalled = ["dev_kiddo__silver__get_patient_gaps"] :=
  ⟨rfl, fun _ => rfl, rfl, rfl, rfl, rfl, rfl⟩

/-! ## Masking lemmas -/

theorem maskLStep_dicts (f : String → PyVal) (recs : List PyDict) :
    maskLStep f (PyList.ofList (recs.map PyVal.dict))
      = PyList.ofList (recs.map fun r => PyVal.dict (maskRecord r)) := by
  induction recs with
  | nil => rfl
  | cons r rest ih =>
    simp only [List.map_cons, PyList.ofList, maskLStep, maskVStep, ih]

theorem mask_result_dict (kvs : PyDict) :
    mask_result (.dict kvs) = .dict (maskRecord kvs) := rfl

theorem mask_result_list_dicts (recs : List PyDict) :
    mask_result (.list (PyList.ofList (recs.map PyVal.dict)))
      = .list (PyList.ofList (recs.map fun r => PyVal.dict (maskRecord r))) := by
  have h : mask_result (.list (PyList.ofList (recs.map PyVal.dict)))
      = .list (maskLStep
          (fun s => match loads s with
            | some d =>
              .str (dumps (maskTop (parseFuelL (PyList.ofList (recs.map PyVal.dict))) d))
            | none => .str s)
          (PyList.ofList (recs.map PyVal.dict))) := rfl
  rw [h, maskLStep_dicts]

theorem loads_some_ne_empty (s : String) (v : PyVal) (h : loads s = some v) : s ≠ "" := by
  intro he
  subst he
  rw [show loads "" = none from rfl] at h
  cases h

theorem string_length_succ_of_ne (s : String) (h : s ≠ "") : ∃ k, s.length = k + 1 := by
  obtain ⟨d⟩ := s
  cases d with
  | nil => exact absurd rfl h
  | cons c cs => exact ⟨cs.length, rfl⟩

theorem mask_result_str_eq (s : String) :
    mask_result (.str s)
      = (match loads s with
         | some d => PyVal.str (dumps (maskTop s.length d))
         | none => .str s) := rfl

theorem mask_result_str_some_dict (s : String) (kvs : PyDict)
    (h : loads s = some (.dict kvs)) :
    mask_result (.str s) = .str (dumps (.dict (maskRecord kvs))) := by
  obtain ⟨k, hk⟩ := string_length_succ_of_ne s (loads_some_ne_empty s _ h)
  rw [mask_result_str_eq, h, hk]
  dsimp only
  rw [show maskTop (k + 1) (.dict kvs) = .dict (maskRecord kvs) from rfl]

theorem mask_result_str_some_list (s : String) (recs : List PyDict)
    (h : loads s = some (.list (PyList.ofList (recs.map PyVal.dict)))) :
    mask_result (.str s)
      = .str (dumps (.list (PyList.ofList (recs.map fun r => PyVal.dict (maskRecord r))))) := by
  obtain ⟨k, hk⟩ := string_length_succ_of_ne s (loads_some_ne_empty s _ h)
  rw [mask_result_str_eq, h, hk]
  dsimp only
  rw [show maskTop (k + 1) (.list (PyList.ofList (recs.map PyVal.dict)))
      = .list (maskLStep
          (fun s2 => match loads s2 with
            | some d => .str (dumps (maskTop k d))
            | none => .str s2)
          (PyList.ofList (recs.map PyVal.dict))) from rfl]
  rw [maskLStep_dicts]

theorem mask_result_str_none (s : String) (h : loads s = none) :
    mask_result (.str s) = .str s := by
  rw [mask_result_str_eq, h]


theorem maskRecord_keys : (kvs : PyDict) → (maskRecord kvs).keys = kvs.keys
  | .nil => rfl
  | .cons k _ tail => by
    show k :: (maskRecord tail).keys = k :: tail.keys
    rw [maskRecord_keys tail]

theorem maskDictEntry_not_phi (k : String) (v : PyVal)
    (h : (should_mask_column k).1 = false) : maskDictEntry k v = v := by
  unfold maskDictEntry
  dsimp only
  rw [h]
  simp

theorem maskDictEntry_falsy (k : String) (v : PyVal)
    (h : pyTruthy v = false) : maskDictEntry k v = v := by
  unfold maskDictEntry
  dsimp only
  rw [h]
  simp

theorem mask_mrn_long (mrn : String) (h9 : 9 ≤ mrn.length) :
    mask_mrn mrn = "****" ++ lastChars 4 mrn := by
  have h1 : ¬(mrn = "" ∨ mrn.length < 4) := by
    rintro (he | hl)
    · subst he
      rw [show ("" : String).length = 0 from rfl] at h9
      omega
    · omega
  unfold mask_mrn
  rw [if_neg h1]

/-- C6: mask_name("John Smith") yields the initials form; mask_mrn of a
9-or-more-digit identifier yields the fixed **** prefix plus its last four
digits; and mask_result applies the same per-field masking (maskRecord)
uniformly to a record, to a list of records and to a JSON-encoded string of
either, parsing the string, masking and re-serializing, while a non-JSON
string passes through unchanged. -/
theorem c6_masking :
    mask_name "John Smith" = "J*** S***"
  ∧ (∀ mrn : String, 9 ≤ mrn.length → mrn.data.all Char.isDigit = true →
      mask_mrn mrn = "****" ++ lastChars 4 mrn)
  ∧ (∀ kvs : PyDict, mask_result (.dict kvs) = .dict (maskRecord kvs))
  ∧ (∀ recs : List PyDict,
      mask_result (.list (PyList.ofList (recs.map PyVal.dict)))
        = .list (PyList.ofList (recs.map fun r => PyVal.dict (maskRecord r))))
  ∧ (∀ (s : String) (kvs : PyDict), loads s = some (.dict kvs) →
      mask_result (.str s) = .str (dumps (.dict (maskRecord kvs))))
  ∧ (∀ (s : String) (recs : List PyDict),
      loads s = some (.list (PyList.ofList (recs.map PyVal.dict))) →
      mask_result (.str s)
        = .str (dumps (.list (PyList.ofList
            (recs.map fun r => PyVal.dict (maskRecord r))))))
  ∧ (∀ s : String, loads s = none → mask_result (.str s) = .str s) :=
  ⟨rfl, fun mrn h9 _ => mask_mrn_long mrn h9, mask_result_dict, mask_result_list_dicts,
   mask_result_str_some_dict, mask_result_str_some_list, mask_result_str_none⟩

theorem c6_masking_witness :
    9 ≤ ("123456789" : String).length
  ∧ ("123456789" : String).data.all Char.isDigit = true
  ∧ mask_mrn "123456789" = "****" ++ lastChars 4 "123456789"
  ∧ mask_mrn "123456789" = "****6789"
  ∧ loads sampleJsonRecord
      = some (.dict (.cons "patient_name" (.str "John Smith")
          (.cons "mrn" (.str "123456789") .nil)))
  ∧ mask_result (.str sampleJsonRecord)
      = .str (dumps (.dict (maskRecord (.cons "patient_name" (.str "John Smith")
          (.cons "mrn" (.str "123456789") .nil)))))
  ∧ mask_result (.str sampleJsonRecord)
      = .str "\x7b\"patient_name\": \"J*** S***\", \"mrn\": \"****6789\"\x7d"
  ∧ loads "not json at all" = none
  ∧ mask_result (.str "not json at all") = .str "not json at all" :=
  ⟨by decide, by decide,
   c6_masking.2.1 "123456789" (by decide) (by decide),
   rfl, rfl,
   c6_masking.2.2.2.2.1 sampleJsonRecord _ rfl,
   rfl, rfl,
   c6_masking.2.2.2.2.2.2 "not json at all" rfl⟩

/-- C10: on a dict, mask_result returns a dict with exactly the same keys in
the same order; entries whose key is not classified as PHI, and entries with
a falsy value, are returned unchanged; scalar values that are neither dict,
list nor string pass through identically. -/
theorem c10_mask_frame :
    (∀ kvs : PyDict, mask_result (.dict kvs) = .dict (maskRecord kvs))
  ∧ (∀ kvs : PyDict, (maskRecord kvs).keys = kvs.keys)
  ∧ (∀ (k : String) (v : PyVal), (should_mask_column k).1 = false → maskDictEntry k v = v)
  ∧ (∀ (k : String) (v : PyVal), pyTruthy v = false → maskDictEntry k v = v)
  ∧ (∀ n : Int, mask_result (.int n) = .int n)
  ∧ (∀ b : Bool, mask_result (.bool b) = .bool b)
  ∧ mask_result .null = .null :=
  ⟨mask_result_dict, maskRecord_keys, maskDictEntry_not_phi, maskDictEntry_falsy,
   fun _ => rfl, fun _ => rfl, rfl⟩

theorem c10_mask_frame_witness :
    (should_mask_column "gap_type").1 = false
  ∧ maskDictEntry "gap_type" (.str "BMI Screening") = .str "BMI Screening"
  ∧ pyTruthy (.str "") = false
  ∧ maskDictEntry "patient_name" (.str "") = .str "" :=
  ⟨by decide, c10_mask_frame.2.2.1 "gap_type" (.str "BMI Screening") (by decide),
   by decide, c10_mask_frame.2.2.2.1 "patient_name" (.str "") (by decide)⟩

/-! ## Formatter lemmas -/

theorem toList_ofList (l : List PyVal) : (PyList.ofList l).toList = l := by
  induction l with
  | nil => rfl
  | cons x xs ih => simp [PyList.ofList, PyList.toList, ih]

theorem length_ofList (l : List PyVal) : (PyList.ofList l).length = l.length := by
  induction l with
  | nil => rfl
  | cons x xs ih => simp [PyList.ofList, PyList.length, ih]

theorem truncate80_le (s : String) : (truncate80 s).length ≤ 80 := by
  rw [show (truncate80 s).length = (s.data.take 80).length from rfl]
  simp [List.length_take]

/-- C7: a non-empty list of N uniform records renders as one humanized
header row, one separator row, exactly N data rows whose cells are the
stringified values truncated to 80 characters, a footer line stating
"Total: N results" and the next-best-actions prompt; the empty list renders
as the fixed no-results message. -/
theorem c7_formatter (recs : List PyDict) (r0 : PyDict) (rest : List PyDict)
    (h : recs = r0 :: rest) :
    format_list_result .nil = "No results found."
  ∧ format_list_result (PyList.ofList (recs.map PyVal.dict))
      = String.intercalate "\n" (format_table_lines (PyList.ofList (recs.map PyVal.dict)))
  ∧ format_table_lines (PyList.ofList (recs.map PyVal.dict))
      = ("| " ++ String.intercalate " | " (r0.keys.map humanize) ++ " |")
        :: ("|" ++ String.intercalate "|" (r0.keys.map fun _ => "---") ++ "|")
        :: ((recs.map PyVal.dict).map (table_row_line r0.keys)
          ++ ["\n**Total: " ++ toString recs.length ++ " results**",
              "\n### Next Best Actions:",
              "Please provide 3-5 specific action items based on this data."])
  ∧ ((recs.map PyVal.dict).map (table_row_line r0.keys)).length = recs.length
  ∧ (∀ (row : PyVal) (hd : String), (table_cell row hd).length ≤ 80)
  ∧ (∀ row : PyVal, table_row_line r0.keys row
      = "| " ++ String.intercalate " | " (r0.keys.map (table_cell row)) ++ " |") := by
  subst h
  refine ⟨rfl, rfl, ?_, by simp, fun row hd => truncate80_le _, fun row => rfl⟩
  unfold format_table_lines
  simp only [List.map_cons, PyList.ofList]
  rw [show (PyList.cons (PyVal.dict r0) (PyList.ofList (rest.map PyVal.dict))).toList
      = PyVal.dict r0 :: (PyList.ofList (rest.map PyVal.dict)).toList from rfl]
  rw [toList_ofList]
  rw [show (PyList.cons (PyVal.dict r0) (PyList.ofList (rest.map PyVal.dict))).length
      = (PyList.ofList (rest.map PyVal.dict)).length + 1 from rfl]
  rw [length_ofList, List.length_map]
  simp [List.length_cons]

theorem c7_formatter_witness :
    ([oneRec] : List PyDict) = oneRec :: []
  ∧ (([oneRec].map PyVal.dict).map (table_row_line oneRec.keys)).length
      = ([oneRec] : List PyDict).length
  ∧ format_list_result (PyList.ofList ([oneRec].map PyVal.dict))
      = "| Patient Name |\n|---|\n| John Smith |\n\n**Total: 1 results**\n\n### Next Best Actions:\nPlease provide 3-5 specific action items based on this data." :=
  ⟨rfl, (c7_formatter [oneRec] oneRec [] rfl).2.2.2.1, rfl⟩

/-- C8 (amended): is_safe_input rejects every over-long input with the fixed
length-specific reason and every input matching a dangerous pattern; in the
driver variant, predict returns the rejection text and the loop never runs
(no model call, no executor call).  The primary agent.py predict, however,
does not invoke the guard at all - see the counterexample. -/
theorem c8_guard_amended :
    (∀ s : String, 1000 < s.length →
      is_safe_input s = (false, "Input too long (max 1000 characters)"))
  ∧ (∀ s : String, (DANGEROUS_PATTERNS.any fun p => regexSearch p s) = true →
      (is_safe_input s).1 = false)
  ∧ (∀ (env : Env) (input : List Msg),
      (is_safe_input (last_user_query input)).1 = false →
      driver_predict env input
        = { output := [Msg.assistant ("I cannot process this request: "
              ++ (is_safe_input (last_user_query input)).2)]
            llmCalls := 0
            execCalls := 0 }) := by
  refine ⟨?_, ?_, ?_⟩
  · intro s h
    have h1 : ¬s = "" := by
      intro he
      subst he
      rw [show ("" : String).length = 0 from rfl] at h
      omega
    unfold is_safe_input
    rw [if_neg h1, if_pos h]
  · intro s h
    unfold is_safe_input
    by_cases h1 : s = ""
    · rw [if_pos h1]
    · rw [if_neg h1]
      by_cases h2 : 1000 < s.length
      · rw [if_pos h2]
      · rw [if_neg h2, if_pos h]
  · intro env input hv
    unfold driver_predict
    dsimp only
    rw [if_pos hv]

theorem c8_guard_witness :
    1000 < longInput.length
  ∧ is_safe_input longInput = (false, "Input too long (max 1000 characters)")
  ∧ (DANGEROUS_PATTERNS.any fun p => regexSearch p dangerousInput) = true
  ∧ (is_safe_input dangerousInput).1 = false
  ∧ (is_safe_input (last_user_query [Msg.user dangerousInput])).1 = false
  ∧ driver_predict envUnknownTool [Msg.user dangerousInput]
      = { output := [Msg.assistant ("I cannot process this request: "
            ++ (is_safe_input (last_user_query [Msg.user dangerousInput])).2)]
          llmCalls := 0
          execCalls := 0 } := by
  have hlen : 1000 < longInput.length := by
    rw [show longInput.length = (List.replicate 1001 'a').length from rfl,
      List.length_replicate]
    omega
  have hdanger : (DANGEROUS_PATTERNS.any fun p => regexSearch p dangerousInput) = true := by
    decide
  have hq : (is_safe_input (last_user_query [Msg.user dangerousInput])).1 = false := by
    decide
  exact ⟨hlen, c8_guard_amended.1 longInput hlen, hdanger,
    c8_guard_amended.2.1 dangerousInput hdanger, hq,
    c8_guard_amended.2.2 envUnknownTool [Msg.user dangerousInput] hq⟩

/-- C8 counterexample: the primary agent.py predict performs no input
validation, so a request whose last user message the guard classifies as
dangerous still enters the orchestration loop and triggers a model call -
refuting "the orchestration loop never runs for that request" for the
primary variant. -/
theorem c8_guard_counterexample :
    (is_safe_input dangerousInput).1 = false
  ∧ (agent_predict envUnknownTool [Msg.user dangerousInput]).llmCalls = 1 :=
  ⟨rfl, rfl⟩
